import Mathlib

/-!
Verification of the Intan spike-sorting pipeline core: trigger-timestamp
detection, probe alignment, pipeline artifact injection and error handling,
shallowly embedded from the Python sources.
-/

/-! ## Trigger detection (IntanClass.generate_trigger_timestamps) -/

/-- Trigger configuration (TriggerClass.Trigger): threshold, edge polarity,
minimum interval in seconds. -/
structure Trigger where
  threshold : Int
  edge : Int
  min_interval : ℚ
deriving DecidableEq

/-- TimestampsClass.TimestampsParameters: a Trigger plus the ADC channel index
used for detection. The index is an integer, as in Python. -/
structure TimestampsParameters where
  trigger : Trigger
  trigger_channel_index : Int
deriving DecidableEq

/-- Boolean under-threshold mask cast to integers:
(signal < threshold).astype(int). -/
def underThresholdMask (signal : List Int) (threshold : Int) : List Int :=
  signal.map (fun x => if x < threshold then 1 else 0)

/-- np.diff: successive differences, length one less than the input. -/
def diffList : List Int → List Int
  | [] => []
  | [_] => []
  | a :: b :: rest => (b - a) :: diffList (b :: rest)

/-- np.where(l == e)[0] starting from index i: ascending indices of entries
equal to e. -/
def whereEqAux (e : Int) : List Int → Nat → List Nat
  | [], _ => []
  | a :: rest, i =>
    if a = e then i :: whereEqAux e rest (i + 1) else whereEqAux e rest (i + 1)

/-- np.where(l == e)[0]: ascending indices of entries equal to e. -/
def whereEq (l : List Int) (e : Int) : List Nat :=
  whereEqAux e l 0

/-- Candidate trigger sample indices:
np.where(np.diff((signal < threshold).astype(int)) == edge)[0]. -/
def triggerSamples (signal : List Int) (threshold edge : Int) : List Nat :=
  whereEq (diffList (underThresholdMask signal threshold)) edge

/-- Sample indices converted to seconds: trigger_samples / frequency. -/
def rawTimestamps (samples : List Nat) (freq : ℚ) : List ℚ :=
  samples.map (fun (j : Nat) => (j : ℚ) / freq)

/-- The debouncing loop: for each candidate t after the first, keep it only if
t - last_kept >= min_interval. -/
def keepLoop (m : ℚ) : ℚ → List ℚ → List ℚ
  | _, [] => []
  | last, t :: ts =>
    if m ≤ t - last then t :: keepLoop m t ts else keepLoop m last ts

/-- Minimum inter-trigger interval filtering: applied only when
min_interval > 0 and the candidate list is non-empty; keeps the first
candidate unconditionally. -/
def debounce (m : ℚ) (l : List ℚ) : List ℚ :=
  if 0 < m then
    match l with
    | [] => []
    | t :: ts => t :: keepLoop m t ts
  else l

/-- Full trigger-timestamp computation of
IntanFile.generate_trigger_timestamps for one extracted channel signal. -/
def triggerTimestamps (signal : List Int) (threshold edge : Int)
    (m freq : ℚ) : List ℚ :=
  debounce m (rawTimestamps (triggerSamples signal threshold edge) freq)

/-- The synthetic auxiliary signal used by the worked example in the spec. -/
def syntheticSignal : List Int := [40000, 40000, 30000, 30000, 40000, 40000]

/-- Claim C1 (counterexample): on the synthetic signal
[40000, 40000, 30000, 30000, 40000, 40000] at 1000 Hz with threshold 35000,
edge -1, min_interval 0, the detected timestamp list is not
[0.002]: the diff of the under-threshold mask is [0, 1, 0, -1, 0], so the
value -1 occurs at index 3, not 2. -/
theorem c1_counterexample :
    triggerTimestamps syntheticSignal 35000 (-1) 0 1000 ≠ [(2 : ℚ) / 1000] := by
  have h : triggerSamples syntheticSignal 35000 (-1) = [3] := by decide
  simp only [triggerTimestamps, debounce, rawTimestamps, h, List.map_cons,
    List.map_nil]
  norm_num

/-- Claim C1 (amended): on the synthetic signal at 1000 Hz with threshold
35000, edge -1, min_interval 0, detection returns exactly one timestamp,
equal to sample index 3 divided by the sampling frequency, i.e. 0.003
seconds: edge -1 marks the transition where the under-threshold mask falls
from 1 to 0, i.e. the signal rises back above threshold between samples 3
and 4. -/
theorem c1_amended :
    triggerTimestamps syntheticSignal 35000 (-1) 0 1000 = [(3 : ℚ) / 1000] := by
  have h : triggerSamples syntheticSignal 35000 (-1) = [3] := by decide
  simp only [triggerTimestamps, debounce, rawTimestamps, h, List.map_cons,
    List.map_nil]
  norm_num

/-! ## Properties of the debouncing scan (claim C2) -/

theorem whereEqAux_mem_ge (e : Int) :
    ∀ (l : List Int) (i j : Nat), j ∈ whereEqAux e l i → i ≤ j := by
  intro l
  induction l with
  | nil => intro i j hj; simp [whereEqAux] at hj
  | cons a rest ih =>
    intro i j hj
    simp only [whereEqAux] at hj
    by_cases ha : a = e
    · simp only [ha, if_pos rfl] at hj
      rcases List.mem_cons.mp hj with h | h
      · omega
      · have := ih (i + 1) j h; omega
    · rw [if_neg ha] at hj
      have := ih (i + 1) j hj; omega

theorem whereEqAux_sorted (e : Int) :
    ∀ (l : List Int) (i : Nat), List.Sorted (· < ·) (whereEqAux e l i) := by
  intro l
  induction l with
  | nil => intro i; simp [whereEqAux]
  | cons a rest ih =>
    intro i
    simp only [whereEqAux]
    by_cases ha : a = e
    · simp only [ha, if_pos rfl]
      refine List.sorted_cons.mpr ⟨?_, ih (i + 1)⟩
      intro b hb
      have := whereEqAux_mem_ge e rest (i + 1) b hb
      omega
    · rw [if_neg ha]; exact ih (i + 1)

theorem triggerSamples_sorted (signal : List Int) (threshold edge : Int) :
    List.Sorted (· < ·) (triggerSamples signal threshold edge) :=
  whereEqAux_sorted edge _ 0

theorem rawTimestamps_sorted (samples : List Nat) (freq : ℚ) (hf : 0 < freq)
    (hs : List.Sorted (· < ·) samples) :
    List.Sorted (· < ·) (rawTimestamps samples freq) := by
  unfold rawTimestamps
  refine List.Pairwise.map _ ?_ hs
  intro a b hab
  have hc : (a : ℚ) < (b : ℚ) := by exact_mod_cast hab
  gcongr

theorem keepLoop_sublist (m : ℚ) :
    ∀ (ts : List ℚ) (last : ℚ), (keepLoop m last ts).Sublist ts := by
  intro ts
  induction ts with
  | nil => intro last; simp [keepLoop]
  | cons t ts ih =>
    intro last
    simp only [keepLoop]
    split
    · exact List.Sublist.cons₂ t (ih t)
    · exact List.Sublist.cons t (ih last)

theorem keepLoop_chain (m : ℚ) :
    ∀ (ts : List ℚ) (last : ℚ),
      List.Chain (fun a b => m ≤ b - a) last (keepLoop m last ts) := by
  intro ts
  induction ts with
  | nil => intro last; simp [keepLoop]
  | cons t ts ih =>
    intro last
    simp only [keepLoop]
    split
    · exact List.Chain.cons (by assumption) (ih t)
    · exact ih last

theorem keepLoop_drop (m : ℚ) :
    ∀ (ts : List ℚ) (last : ℚ), (∀ x ∈ ts, last < x) →
      List.Sorted (· < ·) ts →
      ∀ c ∈ ts, c ∉ keepLoop m last ts →
        ∃ k, (k = last ∨ k ∈ keepLoop m last ts) ∧ k ≤ c ∧ c - k < m := by
  intro ts
  induction ts with
  | nil => intro last _ _ c hc; simp at hc
  | cons t ts ih =>
    intro last hlt hs c hc hnc
    simp only [keepLoop] at hnc ⊢
    by_cases hm : m ≤ t - last
    · rw [if_pos hm] at hnc ⊢
      have hct : c ≠ t := by
        intro h; exact hnc (h ▸ List.mem_cons_self t _)
      have hcts : c ∈ ts := by
        rcases List.mem_cons.mp hc with h | h
        · exact absurd h hct
        · exact h
      have hnc' : c ∉ keepLoop m t ts := fun h => hnc (List.mem_cons_of_mem t h)
      obtain ⟨k, hk, hkc, hkm⟩ :=
        ih t (List.sorted_cons.mp hs).1 (List.sorted_cons.mp hs).2 c hcts hnc'
      refine ⟨k, Or.inr ?_, hkc, hkm⟩
      rcases hk with h | h
      · exact h ▸ List.mem_cons_self t _
      · exact List.mem_cons_of_mem t h
    · rw [if_neg hm] at hnc ⊢
      rcases List.mem_cons.mp hc with hct | hcts
      · refine ⟨last, Or.inl rfl, ?_, ?_⟩
        · exact le_of_lt (hct ▸ hlt t (List.mem_cons_self t _))
        · rw [hct]; linarith [not_le.mp hm]
      · obtain ⟨k, hk, hkc, hkm⟩ :=
          ih last (fun x hx => hlt x (List.mem_cons_of_mem t hx))
            (List.sorted_cons.mp hs).2 c hcts hnc
        exact ⟨k, hk, hkc, hkm⟩

theorem chain_imp_chain' {α : Type} {R : α → α → Prop} (a : α) (l : List α)
    (h : List.Chain R a l) : List.Chain' R (a :: l) := h

theorem debounce_spec (m : ℚ) (l : List ℚ) (hl : List.Sorted (· < ·) l) :
    List.Sorted (· < ·) (debounce m l) ∧
    (0 < m → List.Chain' (fun a b => m ≤ b - a) (debounce m l)) ∧
    (debounce m l).head? = l.head? ∧
    (m = 0 → debounce m l = l) ∧
    (debounce m l).Sublist l ∧
    (∀ c ∈ l, c ∉ debounce m l → ∃ k ∈ debounce m l, k ≤ c ∧ c - k < m) := by
  by_cases h0 : 0 < m
  · cases l with
    | nil => simp [debounce]
    | cons t ts =>
      have hout : debounce m (t :: ts) = t :: keepLoop m t ts := by
        simp [debounce, if_pos h0]
      rw [hout]
      have hsub : (t :: keepLoop m t ts).Sublist (t :: ts) :=
        List.Sublist.cons₂ t (keepLoop_sublist m ts t)
      refine ⟨?_, ?_, rfl, ?_, hsub, ?_⟩
      · exact List.Pairwise.sublist hsub hl
      · intro _; exact chain_imp_chain' t _ (keepLoop_chain m ts t)
      · intro hm0; exfalso; rw [hm0] at h0; exact lt_irrefl 0 h0
      · intro c hc hnc
        rcases List.mem_cons.mp hc with rfl | hcts
        · exact absurd (List.mem_cons_self _ _) hnc
        · have hnc' : c ∉ keepLoop m t ts := fun h =>
            hnc (List.mem_cons_of_mem t h)
          obtain ⟨k, hk, hkc, hkm⟩ :=
            keepLoop_drop m ts t (List.sorted_cons.mp hl).1
              (List.sorted_cons.mp hl).2 c hcts hnc'
          refine ⟨k, ?_, hkc, hkm⟩
          rcases hk with rfl | h
          · exact List.mem_cons_self _ _
          · exact List.mem_cons_of_mem t h
  · have hout : debounce m l = l := by simp [debounce, h0]
    rw [hout]
    exact ⟨hl, fun h => absurd h h0, rfl, fun _ => rfl, List.Sublist.refl l,
      fun c hc hnc => absurd hc hnc⟩

/-- Claim C2: for every input signal and valid parameters (positive sampling
frequency, nonnegative min_interval), the produced timestamp list is strictly
ascending (hence duplicate-free); when min_interval > 0 consecutive kept
timestamps differ by at least min_interval; the first candidate crossing is
always kept (head preserved); when min_interval = 0 no candidate is filtered;
the output is a subsequence of the candidates, and every dropped candidate is
within min_interval of some kept timestamp at or before it (greedy scan). -/
theorem c2_trigger_properties (signal : List Int) (threshold edge : Int)
    (m freq : ℚ) (hf : 0 < freq) (_hm : 0 ≤ m) :
    List.Sorted (· < ·) (triggerTimestamps signal threshold edge m freq) ∧
    (0 < m → List.Chain' (fun a b => m ≤ b - a)
        (triggerTimestamps signal threshold edge m freq)) ∧
    (triggerTimestamps signal threshold edge m freq).head?
      = (rawTimestamps (triggerSamples signal threshold edge) freq).head? ∧
    (m = 0 → triggerTimestamps signal threshold edge m freq
      = rawTimestamps (triggerSamples signal threshold edge) freq) ∧
    (triggerTimestamps signal threshold edge m freq).Sublist
      (rawTimestamps (triggerSamples signal threshold edge) freq) ∧
    (∀ c ∈ rawTimestamps (triggerSamples signal threshold edge) freq,
      c ∉ triggerTimestamps signal threshold edge m freq →
      ∃ k ∈ triggerTimestamps signal threshold edge m freq,
        k ≤ c ∧ c - k < m) := by
  have hraw := rawTimestamps_sorted (triggerSamples signal threshold edge) freq
    hf (triggerSamples_sorted signal threshold edge)
  exact debounce_spec m (rawTimestamps (triggerSamples signal threshold edge)
    freq) hraw

theorem c2_witness :
    List.Sorted (· < ·)
      (triggerTimestamps syntheticSignal 35000 (-1) (1 / 100) 1000) :=
  (c2_trigger_properties syntheticSignal 35000 (-1) (1 / 100) 1000
    (by norm_num) (by norm_num)).1

/-! ## Session state for trigger detection (IntanClass.IntanFile) -/

/-- The part of an IntanFile session touched by generate_trigger_timestamps:
the ADC stream (one trace per ADC channel), the shared sampling frequency,
the stored trigger timestamps and the stored parameters. -/
structure TriggerSession where
  adc_channels : List (List Int)
  frequency : ℚ
  trigger_timestamps : List ℚ
  timestamps_parameters : Option TimestampsParameters
deriving DecidableEq

/-- Range-error message of generate_trigger_timestamps, naming the offending
index and the ADC channel count. -/
def rangeErrorMsg (idx : Int) (n : Nat) : String :=
  "trigger_channel_index=" ++ toString idx ++ " is out of range for "
    ++ toString n ++ " ADC channels."

/-- IntanFile.generate_trigger_timestamps: stores the parameters, validates
the channel index against the ADC channel count (rejecting both negative and
too-large indices), extracts the one channel trace, computes timestamps and
stores them. On the validation error the partially updated session (with only
the parameters stored) is carried alongside the message, mirroring the
mutation already performed before the raise. -/
def generate_trigger_timestamps (s : TriggerSession)
    (tp : TimestampsParameters) :
    Except (String × TriggerSession) TriggerSession :=
  let s1 : TriggerSession := { s with timestamps_parameters := some tp }
  let n := s.adc_channels.length
  let idx := tp.trigger_channel_index
  if idx < 0 ∨ (n : Int) ≤ idx then
    .error (rangeErrorMsg idx n, s1)
  else
    let signal := s.adc_channels.getD idx.toNat []
    .ok { s1 with
      trigger_timestamps :=
        triggerTimestamps signal tp.trigger.threshold tp.trigger.edge
          tp.trigger.min_interval s.frequency }

/-- Claim C6: whenever trigger_channel_index is at least the ADC channel
count (any count, including 0), generate_trigger_timestamps fails with the
range error naming the offending index and the channel count, and
trigger_timestamps of the session is left unchanged. -/
theorem c6_index_range (s : TriggerSession) (tp : TimestampsParameters)
    (h : (s.adc_channels.length : Int) ≤ tp.trigger_channel_index) :
    generate_trigger_timestamps s tp =
      .error (rangeErrorMsg tp.trigger_channel_index s.adc_channels.length,
        { s with timestamps_parameters := some tp }) ∧
    ∀ e s', generate_trigger_timestamps s tp = .error (e, s') →
      s'.trigger_timestamps = s.trigger_timestamps := by
  have hcond : tp.trigger_channel_index < 0 ∨
      (s.adc_channels.length : Int) ≤ tp.trigger_channel_index := Or.inr h
  constructor
  · simp [generate_trigger_timestamps, if_pos hcond]
  · intro e s' he
    simp [generate_trigger_timestamps, if_pos hcond] at he
    rw [← he.2]

theorem c6_witness :
    generate_trigger_timestamps
        ⟨[[1, 2], [3, 4]], 1000, [], none⟩ ⟨⟨35000, -1, 0⟩, 2⟩ =
      .error (rangeErrorMsg 2 2,
        ⟨[[1, 2], [3, 4]], 1000, [], some ⟨⟨35000, -1, 0⟩, 2⟩⟩) :=
  (c6_index_range ⟨[[1, 2], [3, 4]], 1000, [], none⟩ ⟨⟨35000, -1, 0⟩, 2⟩
    (by norm_num)).1

/-- Claim C10: a negative trigger_channel_index fails with the same range
error as an over-large one — it is never treated as wrap-around indexing from
the end of the channel list. -/
theorem c10_negative_index (s : TriggerSession) (tp : TimestampsParameters)
    (h : tp.trigger_channel_index < 0) :
    generate_trigger_timestamps s tp =
      .error (rangeErrorMsg tp.trigger_channel_index s.adc_channels.length,
        { s with timestamps_parameters := some tp }) := by
  have hcond : tp.trigger_channel_index < 0 ∨
      (s.adc_channels.length : Int) ≤ tp.trigger_channel_index := Or.inl h
  simp [generate_trigger_timestamps, if_pos hcond]

theorem c10_witness :
    generate_trigger_timestamps
        ⟨[[1, 2], [3, 4]], 1000, [], none⟩ ⟨⟨35000, -1, 0⟩, -1⟩ =
      .error (rangeErrorMsg (-1) 2,
        ⟨[[1, 2], [3, 4]], 1000, [], some ⟨⟨35000, -1, 0⟩, -1⟩⟩) :=
  c10_negative_index ⟨[[1, 2], [3, 4]], 1000, [], none⟩ ⟨⟨35000, -1, 0⟩, -1⟩
    (by norm_num)

/-! ## Protocol and artifact injection (ProtocolClass, PipelineClass) -/

/-- A preprocessing step value in the protocol dictionary. -/
inductive StepParams where
  | bandpass (freq_min freq_max : ℚ)
  | removeArtifacts (list_triggers : List ℚ) (mode : String)
deriving DecidableEq

/-- Python dict assignment d[k] = v: replace the value if the key exists,
otherwise append the new pair at the end (insertion order preserved). -/
def dictSet (d : List (String × StepParams)) (k : String) (v : StepParams) :
    List (String × StepParams) :=
  if (d.map Prod.fst).contains k then
    d.map (fun p => if p.1 = k then (k, v) else p)
  else d ++ [(k, v)]

/-- Python dict lookup d.get(k): first matching value, if any. -/
def dictGet (d : List (String × StepParams)) (k : String) :
    Option StepParams :=
  match d.find? (fun p => p.1 = k) with
  | some p => some p.2
  | none => none

/-- Protocol.__init__: the preprocessing dictionary, holding exactly the
band-pass step. -/
def protocolPreprocessing (min_freq max_freq : ℚ) :
    List (String × StepParams) :=
  [("bandpass_filter", StepParams.bandpass min_freq max_freq)]

/-- Pipeline.__remove_artifacts: if trigger_timestamps of the session is
non-empty, set preprocessing["remove_artifacts"] to the timestamp list with
mode "zeros"; otherwise leave the preprocessing dictionary untouched. -/
def removeArtifactsStep (pre : List (String × StepParams)) (tts : List ℚ) :
    List (String × StepParams) :=
  if tts.length ≠ 0 then
    dictSet pre "remove_artifacts"
      (StepParams.removeArtifacts tts "zeros")
  else pre

/-- Claim C3: starting from the protocol built by Protocol.__init__, the
artifact step of the pipeline is present in its protocol copy exactly
when trigger_timestamps of the session is non-empty; when present its parameters are
exactly the timestamp list and mode "zeros"; when the timestamps are empty
the step is absent (not present with an empty list). -/
theorem c3_artifact_injection (min_freq max_freq : ℚ) (tts : List ℚ) :
    (tts ≠ [] →
      dictGet (removeArtifactsStep (protocolPreprocessing min_freq max_freq)
          tts) "remove_artifacts"
        = some (StepParams.removeArtifacts tts "zeros")) ∧
    (tts = [] →
      dictGet (removeArtifactsStep (protocolPreprocessing min_freq max_freq)
          tts) "remove_artifacts" = none) := by
  constructor
  · intro hne
    have hlen : tts.length ≠ 0 := fun h => hne (List.eq_nil_of_length_eq_zero h)
    simp [removeArtifactsStep, hlen, dictSet, protocolPreprocessing, dictGet]
  · intro he
    subst he
    simp [removeArtifactsStep, protocolPreprocessing, dictGet]

theorem c3_witness :
    dictGet (removeArtifactsStep (protocolPreprocessing 300 3000) [1 / 2])
        "remove_artifacts"
      = some (StepParams.removeArtifacts [1 / 2] "zeros") :=
  (c3_artifact_injection 300 3000 [1 / 2]).1 (by simp)

/-! ## Deep copy of the protocol (Pipeline.__init__, claim C8) -/

/-- The mutable data of one protocol object: its preprocessing dictionary. -/
structure ProtocolData where
  preprocessing : List (String × StepParams)
deriving DecidableEq

/-- A heap of protocol objects; references are list indices. -/
def protoGet (store : List ProtocolData) (r : Nat) : Option ProtocolData :=
  store[r]?

/-- In-place mutation of the object at reference r. -/
def protoSet (store : List ProtocolData) (r : Nat) (p : ProtocolData) :
    List ProtocolData :=
  store.set r p

/-- copy.deepcopy: allocate a fresh object holding a copy of the data at r;
returns the new store and the fresh reference. -/
def deepcopyAlloc (store : List ProtocolData) (r : Nat) :
    List ProtocolData × Nat :=
  match store[r]? with
  | some p => (store ++ [p], store.length)
  | none => (store, store.length)

/-- Pipeline.__init__ followed by __remove_artifacts, at the protocol level:
deep-copy the protocol of the caller, then mutate the copy through the artifact
injection. Returns the final store and the own reference of the pipeline. -/
def pipelineInitStore (store : List ProtocolData) (callerRef : Nat)
    (tts : List ℚ) : List ProtocolData × Nat :=
  let a := deepcopyAlloc store callerRef
  match protoGet a.1 a.2 with
  | some p =>
    (protoSet a.1 a.2 ⟨removeArtifactsStep p.preprocessing tts⟩, a.2)
  | none => (a.1, a.2)

/-- Claim C8: for every protocol object in the store, the protocol of the caller
is identical before and after pipeline construction: the orchestrator
deep-copies it before any mutation, so artifact-step injection never alters
the configuration of the caller. -/
theorem c8_protocol_deepcopy (store : List ProtocolData) (callerRef : Nat)
    (tts : List ℚ) (h : callerRef < store.length) :
    protoGet (pipelineInitStore store callerRef tts).1 callerRef
      = protoGet store callerRef := by
  obtain ⟨p, hp⟩ : ∃ p, store[callerRef]? = some p :=
    ⟨store[callerRef], List.getElem?_eq_getElem h⟩
  have halloc : deepcopyAlloc store callerRef = (store ++ [p], store.length) := by
    simp [deepcopyAlloc, hp]
  have hget : (store ++ [p])[store.length]? = some p := by simp
  simp only [pipelineInitStore, halloc, protoGet, protoSet, hget]
  rw [List.getElem?_set_ne (by omega)]
  simp [List.getElem?_append, h]

theorem c8_witness :
    protoGet (pipelineInitStore [⟨protocolPreprocessing 300 3000⟩] 0
        [1 / 2]).1 0
      = protoGet [⟨protocolPreprocessing 300 3000⟩] 0 :=
  c8_protocol_deepcopy [⟨protocolPreprocessing 300 3000⟩] 0 [1 / 2]
    (by norm_num)

/-! ## Probe alignment (IntanClass.associate_probe, ProbeClass.Probe) -/

/-- A Python value appearing as a contact or channel identifier: either an
integer or a string, as stored in the probe dataframe or the channel-id
array before string normalisation. -/
inductive PyVal where
  | intV (n : Int)
  | strV (s : String)
deriving DecidableEq

/-- Python str(v) on an identifier value. -/
def pyStr : PyVal → String
  | .intV n => toString n
  | .strV s => s

/-- One row of the probe dataframe: contact id, device channel index, and the
geometry columns (contact position). -/
structure PRow where
  contact_ids : PyVal
  device_channel_indices : Int
  x : ℚ
  y : ℚ
deriving DecidableEq

/-- The in-place column assignment
probe_df["contact_ids"] = probe_df["contact_ids"].astype(str), row-wise. -/
def strNormalizeRow (r : PRow) : PRow :=
  { r with contact_ids := .strV (pyStr r.contact_ids) }

/-- String-normalise the contact_ids column of the whole table. -/
def strNormalize (df : List PRow) : List PRow :=
  df.map strNormalizeRow

/-- probe_df[probe_df["contact_ids"].isin([str(ch) for ch in channel_ids])]. -/
def filterByChannels (df : List PRow) (channel_ids : List PyVal) :
    List PRow :=
  df.filter (fun r => (channel_ids.map pyStr).contains (pyStr r.contact_ids))

/-- drop_duplicates(subset="contact_ids"): keep the first row for each
contact id. -/
def dropDupAux (seen : List String) : List PRow → List PRow
  | [] => []
  | r :: rest =>
    if seen.contains (pyStr r.contact_ids) then dropDupAux seen rest
    else r :: dropDupAux (pyStr r.contact_ids :: seen) rest

/-- sort_values(by="device_channel_indices"): sort rows by device channel
index ascending. -/
def sortByDevIdx (df : List PRow) : List PRow :=
  List.insertionSort
    (fun a b => a.device_channel_indices ≤ b.device_channel_indices) df

/-- probe_df["device_channel_indices"] = range(len(probe_df)): overwrite the
device index column with 0, 1, 2, ... starting from i. -/
def reindexDevAux (i : Int) : List PRow → List PRow
  | [] => []
  | r :: rest =>
    { r with device_channel_indices := i } :: reindexDevAux (i + 1) rest

/-- Dense zero-based renumbering of device_channel_indices. -/
def reindexDev (df : List PRow) : List PRow :=
  reindexDevAux 0 df

/-- Count-mismatch error message of associate_probe, naming the probe contact
count and the recording channel count. -/
def mismatchMsg (nProbe nRec : Nat) : String :=
  "Incoherence entre le nombre de contacts du probe (" ++ toString nProbe
    ++ ") et le nombre de canaux de l enregistrement (" ++ toString nRec
    ++ "). Verifiez le mapping des contact_ids ou la selection des canaux."

/-- The alignment computation on the already string-normalised table:
filter to recording channels, drop duplicate contacts, check the count
against the channel count, sort by device index and renumber densely. -/
def alignTable (df1 : List PRow) (channel_ids : List PyVal) :
    Except String (List PRow) :=
  let df3 := dropDupAux [] (filterByChannels df1 channel_ids)
  if df3.length ≠ channel_ids.length then
    .error (mismatchMsg df3.length channel_ids.length)
  else
    .ok (reindexDev (sortByDevIdx df3))

/-- IntanFile.associate_probe at the dataframe level. The first component is
the probe table of the caller after the call: the in-place astype(str) column
assignment mutates the shared dataframe before any filtering, and the later
steps rebind to fresh tables. The second component is the aligned table or
the count-mismatch error. -/
def associate_probe_full (df : List PRow) (channel_ids : List PyVal) :
    List PRow × Except String (List PRow) :=
  let df1 := strNormalize df
  (df1, alignTable df1 channel_ids)

/-- The aligned-table result of associate_probe. -/
def associate_probe (df : List PRow) (channel_ids : List PyVal) :
    Except String (List PRow) :=
  (associate_probe_full df channel_ids).2

/-- The session state touched by associate_probe: the recording channel ids
and the probe attached to the amplifier recording by set_probe. -/
structure ProbeSession where
  channel_ids : List PyVal
  attachedProbe : Option (List PRow)
deriving DecidableEq

/-- associate_probe at the session level: on success the aligned probe is
attached to the recording; on the count-mismatch error the session is
carried unchanged alongside the message (set_probe is never reached). -/
def sessionAssociateProbe (s : ProbeSession) (df : List PRow) :
    Except (String × ProbeSession) ProbeSession :=
  match associate_probe df s.channel_ids with
  | .error e => .error (e, s)
  | .ok r => .ok { s with attachedProbe := some r }

/-- Claim C4: whenever the filtered, deduplicated probe table has a row count
different from the channel count, probe alignment fails with the
count-mismatch error naming the two counts, and no probe is attached to the
session. -/
theorem c4_alignment_mismatch (s : ProbeSession) (df : List PRow)
    (h : (dropDupAux [] (filterByChannels (strNormalize df)
        s.channel_ids)).length ≠ s.channel_ids.length) :
    sessionAssociateProbe s df =
      .error (mismatchMsg
        (dropDupAux [] (filterByChannels (strNormalize df)
          s.channel_ids)).length s.channel_ids.length, s) ∧
    ∀ e s', sessionAssociateProbe s df = .error (e, s') →
      s'.attachedProbe = s.attachedProbe := by
  have hrun : associate_probe df s.channel_ids =
      .error (mismatchMsg
        (dropDupAux [] (filterByChannels (strNormalize df)
          s.channel_ids)).length s.channel_ids.length) := by
    simp [associate_probe, associate_probe_full, alignTable, if_pos h]
  constructor
  · simp [sessionAssociateProbe, hrun]
  · intro e s' he
    simp [sessionAssociateProbe, hrun] at he
    rw [← he.2]

theorem c4_witness :
    sessionAssociateProbe ⟨[.strV "0", .strV "1"], none⟩
        [⟨.strV "0", 0, 0, 0⟩] =
      .error (mismatchMsg 1 2, ⟨[.strV "0", .strV "1"], none⟩) :=
  (c4_alignment_mismatch ⟨[.strV "0", .strV "1"], none⟩
    [⟨.strV "0", 0, 0, 0⟩] (by decide)).1

theorem reindexDevAux_dev :
    ∀ (df : List PRow) (i : Int),
      (reindexDevAux i df).map (fun r => r.device_channel_indices)
        = (List.range df.length).map (fun (k : Nat) => i + (k : Int)) := by
  intro df
  induction df with
  | nil => intro i; simp [reindexDevAux]
  | cons r rest ih =>
    intro i
    simp only [reindexDevAux, List.map_cons, List.length_cons,
      List.range_succ_eq_map, List.map_map]
    rw [ih (i + 1)]
    have hmap : (List.range rest.length).map
          ((fun (k : Nat) => i + (k : Int)) ∘ Nat.succ)
        = (List.range rest.length).map
          (fun (k : Nat) => (i + 1) + (k : Int)) := by
      refine List.map_congr_left ?_
      intro k _
      simp only [Function.comp]
      push_cast
      ring
    rw [hmap]
    simp

theorem reindexDevAux_contact :
    ∀ (df : List PRow) (i : Int),
      (reindexDevAux i df).map (fun r => r.contact_ids)
        = df.map (fun r => r.contact_ids) := by
  intro df
  induction df with
  | nil => intro i; simp [reindexDevAux]
  | cons r rest ih =>
    intro i
    simp only [reindexDevAux, List.map_cons]
    rw [ih (i + 1)]

theorem dropDupAux_subset :
    ∀ (l : List PRow) (seen : List String) (r : PRow),
      r ∈ dropDupAux seen l → r ∈ l := by
  intro l
  induction l with
  | nil => intro seen r h; simp [dropDupAux] at h
  | cons a rest ih =>
    intro seen r h
    simp only [dropDupAux] at h
    split at h
    · exact List.mem_cons_of_mem a (ih _ r h)
    · rcases List.mem_cons.mp h with rfl | h'
      · exact List.mem_cons_self _ _
      · exact List.mem_cons_of_mem a (ih _ r h')

/-- Claim C5: on success, probe alignment returns a table whose
device_channel_indices column is exactly the dense sequence 0..n-1 with n
the channel count, and the string-normalised contact id of every surviving row
occurs among the string-normalised channel ids; on the concrete example with
probe contacts "0", "1", "2" and channel ids "1", "2", the result has
exactly the two rows for contacts "1" and "2", in original relative order,
with dense device indices 0 and 1, and contact "0" excluded. -/
theorem c5_alignment_result :
    (∀ (df : List PRow) (ch : List PyVal) (r : List PRow),
      associate_probe df ch = .ok r →
      r.map (fun row => row.device_channel_indices)
        = (List.range ch.length).map (fun (k : Nat) => (k : Int)) ∧
      ∀ row ∈ r,
        (ch.map pyStr).contains (pyStr row.contact_ids) = true) ∧
    associate_probe
        [⟨.strV "0", 0, 0, 0⟩, ⟨.strV "1", 1, 0, 1⟩, ⟨.strV "2", 2, 0, 2⟩]
        [.strV "1", .strV "2"]
      = .ok [⟨.strV "1", 0, 0, 1⟩, ⟨.strV "2", 1, 0, 2⟩] := by
  constructor
  · intro df ch r hok
    simp only [associate_probe, associate_probe_full, alignTable] at hok
    split at hok
    · exact absurd hok (by simp)
    · rename_i hlen
      have hlen' : (dropDupAux [] (filterByChannels (strNormalize df)
          ch)).length = ch.length := by
        by_contra hne
        exact hlen hne
      have hr : r = reindexDev (sortByDevIdx
          (dropDupAux [] (filterByChannels (strNormalize df) ch))) := by
        cases hok
        rfl
      subst hr
      have hperm := List.perm_insertionSort
        (fun a b => a.device_channel_indices ≤ b.device_channel_indices)
        (dropDupAux [] (filterByChannels (strNormalize df) ch))
      constructor
      · rw [reindexDev, reindexDevAux_dev]
        have hlen2 : (sortByDevIdx (dropDupAux []
            (filterByChannels (strNormalize df) ch))).length
            = ch.length := by
          rw [sortByDevIdx, hperm.length_eq, hlen']
        rw [hlen2]
        refine List.map_congr_left ?_
        intro k _
        simp
      · intro row hrow
        have hc : row.contact_ids ∈ (sortByDevIdx (dropDupAux []
            (filterByChannels (strNormalize df) ch))).map
            (fun r => r.contact_ids) := by
          rw [← reindexDevAux_contact _ 0]
          exact List.mem_map_of_mem _ hrow
        obtain ⟨row', hrow', hceq⟩ := List.mem_map.mp hc
        have hrow'2 : row' ∈ dropDupAux []
            (filterByChannels (strNormalize df) ch) :=
          hperm.mem_iff.mp hrow'
        have hrow'3 : row' ∈ filterByChannels (strNormalize df) ch :=
          dropDupAux_subset _ [] row' hrow'2
        have := List.of_mem_filter hrow'3
        rw [← hceq]
        simpa using this
  · rfl

theorem c5_witness :
    ([⟨.strV "1", 0, 0, 1⟩, ⟨.strV "2", 1, 0, 2⟩] : List PRow).map
        (fun row => row.device_channel_indices)
      = (List.range ([PyVal.strV "1", PyVal.strV "2"] : List PyVal).length).map
        (fun (k : Nat) => (k : Int)) :=
  (c5_alignment_result.1
    [⟨.strV "0", 0, 0, 0⟩, ⟨.strV "1", 1, 0, 1⟩, ⟨.strV "2", 2, 0, 2⟩]
    [.strV "1", .strV "2"]
    [⟨.strV "1", 0, 0, 1⟩, ⟨.strV "2", 1, 0, 2⟩] (by rfl)).1

/-- Claim C9 (counterexample): the probe table of the caller is not read-only:
for a probe whose contact id is the integer 7, the in-place
astype(str) column assignment of associate_probe leaves the table of the caller holding the string
"7" instead of the integer 7. -/
theorem c9_counterexample :
    (associate_probe_full [⟨.intV 7, 0, 0, 0⟩] [.intV 7]).1
      ≠ [⟨.intV 7, 0, 0, 0⟩] := by
  decide

/-- Claim C9 (amended): after associate_probe runs (success or failure), the
probe table of the caller is the string-normalised original: same row count and
order, every column other than contact_ids unchanged, each contact id
replaced by its string form in place; in particular the table is fully
unchanged when all contact ids are already strings. -/
theorem c9_amended (df : List PRow) (ch : List PyVal) :
    (associate_probe_full df ch).1 = strNormalize df ∧
    ((∀ r ∈ df, ∃ s, r.contact_ids = PyVal.strV s) →
      (associate_probe_full df ch).1 = df) ∧
    (∀ i : Nat, ((associate_probe_full df ch).1[i]?).map
        (fun r => (r.device_channel_indices, r.x, r.y))
      = (df[i]?).map (fun r => (r.device_channel_indices, r.x, r.y))) := by
  refine ⟨rfl, ?_, ?_⟩
  · intro hall
    show df.map strNormalizeRow = df
    have hid : ∀ r ∈ df, strNormalizeRow r = r := by
      intro r hr
      obtain ⟨s, hs⟩ := hall r hr
      cases r with
      | mk c d x y =>
        cases hs
        rfl
    rw [List.map_congr_left hid]
    simp
  · intro i
    show ((df.map strNormalizeRow)[i]?).map _ = _
    rw [List.getElem?_map]
    cases h : df[i]? with
    | none => rfl
    | some r => rfl

theorem c9_witness :
    (associate_probe_full [⟨.strV "3", 5, 0, 0⟩] [.strV "3"]).1
      = [⟨.strV "3", 5, 0, 0⟩] :=
  (c9_amended [⟨.strV "3", 5, 0, 0⟩] [.strV "3"]).2.1
    (by
      intro r hr
      simp only [List.mem_singleton] at hr
      subst hr
      exact ⟨"3", rfl⟩)

/-! ## Analyzer construction error translation (Pipeline, claim C7) -/

/-- Character-list comparison from the start: true when the first list is an
initial segment of the second. -/
def chStart : List Char → List Char → Bool
  | [], _ => true
  | _ :: _, [] => false
  | a :: as, b :: bs => a == b && chStart as bs

/-- Python substring containment needle in hay. -/
def chHasSub (needle : List Char) : List Char → Bool
  | [] => chStart needle []
  | c :: rest => chStart needle (c :: rest) || chHasSub needle rest

/-- Python substring test on strings. -/
def strHasSub (needle hay : String) : Bool :=
  chHasSub needle.toList hay.toList

/-- A Python exception as seen by the analyzer step of the pipeline: its class and
its message. -/
inductive PyError where
  | valueError (msg : String)
  | runtimeError (msg : String)
  | keyError (msg : String)
deriving DecidableEq

/-- Message of the generic library failure when the curated sorting has no
spikes to sample. -/
def needConcatMsg : String := "need at least one array to concatenate"

/-- The domain-specific error the pipeline raises in place of the generic
library zero-spike failure. -/
def EmptySortingError : PyError :=
  .runtimeError "Analyzer creation failed because sorting has no spikes to sample."

/-- The except-clause of Pipeline.__pipeline_sorter_analyzer: a ValueError
whose message contains the concatenate message is translated into the
domain-specific error; every other error is re-raised unchanged. -/
def translateAnalyzerError (e : PyError) : PyError :=
  match e with
  | .valueError msg =>
    if strHasSub needConcatMsg msg then EmptySortingError
    else .valueError msg
  | e => e

/-- The guarded analyzer-construction step: pass successes through, translate
failures through the except clause. -/
def createAnalyzerGuarded (buildResult : Except PyError Unit) :
    Except PyError Unit :=
  match buildResult with
  | .ok a => .ok a
  | .error e => .error (translateAnalyzerError e)

/-- Modelled from the spec: create_sorting_analyzer is the constructor of the
external analysis engine, absent from the sources; per the spec, construction on
a curated sorting with zero spikes fails with the generic library error
(a ValueError whose message says there is no array to concatenate), and
succeeds otherwise in the absence of other faults. -/
def create_sorting_analyzer (numSpikes : Nat) : Except PyError Unit :=
  if numSpikes = 0 then .error (.valueError needConcatMsg) else .ok ()

/-- The analyzer construction of the pipeline for a curated sorting with the
given spike count. -/
def pipelineAnalyzerStep (numSpikes : Nat) : Except PyError Unit :=
  createAnalyzerGuarded (create_sorting_analyzer numSpikes)

/-- Claim C7: analyzer construction on a zero-spike curated sorting raises
the domain-specific EmptySortingError instead of the generic library
error, and every construction error other than the recognised zero-spike
ValueError propagates to the caller unchanged. -/
theorem c7_empty_sorting (e : PyError) :
    pipelineAnalyzerStep 0 = .error EmptySortingError ∧
    pipelineAnalyzerStep 0 ≠ .error (.valueError needConcatMsg) ∧
    ((∀ msg, e = PyError.valueError msg → strHasSub needConcatMsg msg = false) →
      createAnalyzerGuarded (.error e) = .error e) := by
  refine ⟨rfl, ?_, ?_⟩
  · intro h
    have h1 : pipelineAnalyzerStep 0 = .error EmptySortingError := rfl
    rw [h1] at h
    simp [EmptySortingError] at h
  intro h
  cases e with
  | valueError msg =>
    simp [createAnalyzerGuarded, translateAnalyzerError, h msg rfl]
  | runtimeError msg => rfl
  | keyError msg => rfl

theorem c7_witness :
    createAnalyzerGuarded (.error (PyError.keyError "postprocessing"))
      = .error (PyError.keyError "postprocessing") :=
  (c7_empty_sorting (PyError.keyError "postprocessing")).2.2
    (by intro msg h; cases h)
